import Mathlib

/-!
Shallow embedding of the historical-weather analysis core of the
VremenskaPro weather dashboard (`src/lib/geolocation.ts`):
the weather-code catalog (`WEATHER_CODES`, `getWeatherIcon`,
`getWeatherDescription`) and the analysis engine
(`analyzeWeatherHistory`).

JavaScript numbers are modelled as `JSNum`: an exact rational together
with the IEEE special values `NaN`, `Infinity` and `-Infinity`.  The
special values matter: `Math.max(...[])` is `-Infinity` and `0/0` is
`NaN`, and `analyzeWeatherHistory` can reach both.  Exact rational
arithmetic stands in for double arithmetic; every claim below is about
values and roundings that doubles represent exactly.
-/

/-- A JavaScript number: a finite value (modelled exactly as a rational)
or one of the IEEE special values. -/
inductive JSNum where
  | num (q : ℚ)
  | nan
  | inf
  | ninf
deriving DecidableEq, Repr

namespace JSNum

/-- JavaScript `+` on numbers. -/
def jsAdd : JSNum → JSNum → JSNum
  | nan, _ => nan
  | _, nan => nan
  | inf, ninf => nan
  | ninf, inf => nan
  | inf, _ => inf
  | _, inf => inf
  | ninf, _ => ninf
  | _, ninf => ninf
  | num a, num b => num (a + b)

/-- JavaScript `*` on numbers. -/
def jsMul : JSNum → JSNum → JSNum
  | nan, _ => nan
  | _, nan => nan
  | num a, num b => num (a * b)
  | inf, inf => inf
  | inf, ninf => ninf
  | ninf, inf => ninf
  | ninf, ninf => inf
  | inf, num b => if b = 0 then nan else if b < 0 then ninf else inf
  | num a, inf => if a = 0 then nan else if a < 0 then ninf else inf
  | ninf, num b => if b = 0 then nan else if b < 0 then inf else ninf
  | num a, ninf => if a = 0 then nan else if a < 0 then inf else ninf

/-- JavaScript `/` on numbers (sign of zero ignored: the embedding has a
single zero, and no division in the analysis code divides by a negative
zero). -/
def jsDiv : JSNum → JSNum → JSNum
  | nan, _ => nan
  | _, nan => nan
  | inf, inf => nan
  | inf, ninf => nan
  | ninf, inf => nan
  | ninf, ninf => nan
  | inf, num b => if b < 0 then ninf else inf
  | ninf, num b => if b < 0 then inf else ninf
  | num _, inf => num 0
  | num _, ninf => num 0
  | num a, num b =>
      if b = 0 then (if a = 0 then nan else if a < 0 then ninf else inf)
      else num (a / b)

/-- Binary `Math.max` (NaN-contaminating). -/
def jsMax : JSNum → JSNum → JSNum
  | nan, _ => nan
  | _, nan => nan
  | num a, num b => num (max a b)
  | inf, _ => inf
  | _, inf => inf
  | ninf, b => b
  | a, ninf => a

/-- Binary `Math.min` (NaN-contaminating). -/
def jsMin : JSNum → JSNum → JSNum
  | nan, _ => nan
  | _, nan => nan
  | num a, num b => num (min a b)
  | ninf, _ => ninf
  | _, ninf => ninf
  | inf, b => b
  | a, inf => a

/-- `Math.max(...l)`: left fold from `-Infinity`, as the variadic
`Math.max` is specified. -/
def jsMaxList (l : List JSNum) : JSNum := l.foldl jsMax ninf

/-- `Math.min(...l)`: left fold from `Infinity`. -/
def jsMinList (l : List JSNum) : JSNum := l.foldl jsMin inf

/-- `l.reduce((a, b) => a + b, 0)`. -/
def jsSum (l : List JSNum) : JSNum := l.foldl jsAdd (num 0)

/-- `Math.round`: rounds a finite value half toward positive infinity
(`Math.round x = ⌊x + 0.5⌋` for finite `x`); fixed on the specials. -/
def jsRound : JSNum → JSNum
  | num q => num ((⌊q + 1/2⌋ : ℤ) : ℚ)
  | nan => nan
  | inf => inf
  | ninf => ninf

end JSNum

/-- `type WeatherIcon = string | { day: string; night: string }`. -/
inductive WeatherIcon where
  | single (name : String)
  | dayNight (day night : String)
deriving DecidableEq, Repr

/-- One value of the `WEATHER_CODES` record. -/
structure WeatherEntry where
  description : String
  icon : WeatherIcon
deriving DecidableEq, Repr

/-- The `WEATHER_CODES` record of `src/lib/geolocation.ts`, as the
indexing function it is used through: `WEATHER_CODES[c]` is `some` entry
for the 30 catalogued codes and `none` (JS `undefined`) otherwise. -/
def WEATHER_CODES (c : ℤ) : Option WeatherEntry :=
  match c with
  | 0 => some ⟨"Jasno", .dayNight "clear-day" "clear-night"⟩
  | 1 => some ⟨"Pretežno jasno", .dayNight "clear-day" "clear-night"⟩
  | 2 => some ⟨"Delno oblačno", .dayNight "cloudy-1-day" "cloudy-1-night"⟩
  | 3 => some ⟨"Oblačno", .dayNight "cloudy-3-day" "cloudy-3-night"⟩
  | 45 => some ⟨"Megla", .dayNight "fog-day" "fog-night"⟩
  | 48 => some ⟨"Megla z ivjem", .dayNight "fog-day" "fog-night"⟩
  | 51 => some ⟨"Rahlo rosenje", .dayNight "rainy-1-day" "rainy-1-night"⟩
  | 53 => some ⟨"Zmerno rosenje", .dayNight "rainy-2-day" "rainy-2-night"⟩
  | 55 => some ⟨"Gosto rosenje", .dayNight "rainy-3-day" "rainy-3-night"⟩
  | 56 => some ⟨"Rahlo ledeno rosenje", .single "rain-and-sleet-mix"⟩
  | 57 => some ⟨"Gosto ledeno rosenje", .single "rain-and-sleet-mix"⟩
  | 61 => some ⟨"Rahlo deževje", .dayNight "rainy-1-day" "rainy-1-night"⟩
  | 63 => some ⟨"Zmerno deževje", .dayNight "rainy-2-day" "rainy-2-night"⟩
  | 65 => some ⟨"Močno deževje", .dayNight "rainy-3-day" "rainy-3-night"⟩
  | 66 => some ⟨"Rahlo ledeno deževje", .single "rain-and-sleet-mix"⟩
  | 67 => some ⟨"Močno ledeno deževje", .single "rain-and-sleet-mix"⟩
  | 71 => some ⟨"Rahlo sneženje", .dayNight "snowy-1-day" "snowy-1-night"⟩
  | 73 => some ⟨"Zmerno sneženje", .dayNight "snowy-2-day" "snowy-2-night"⟩
  | 75 => some ⟨"Močno sneženje", .dayNight "snowy-3-day" "snowy-3-night"⟩
  | 77 => some ⟨"Snežna zrna", .dayNight "snowy-1-day" "snowy-1-night"⟩
  | 80 => some ⟨"Rahle dežne plohe", .dayNight "rainy-1-day" "rainy-1-night"⟩
  | 81 => some ⟨"Zmerne dežne plohe", .dayNight "rainy-2-day" "rainy-2-night"⟩
  | 82 => some ⟨"Močne dežne plohe", .dayNight "rainy-3-day" "rainy-3-night"⟩
  | 85 => some ⟨"Rahle snežne plohe", .dayNight "snowy-1-day" "snowy-1-night"⟩
  | 86 => some ⟨"Močne snežne plohe", .dayNight "snowy-3-day" "snowy-3-night"⟩
  | 95 => some ⟨"Nevihta", .single "thunderstorms"⟩
  | 96 => some ⟨"Nevihta z rahlo točo",
      .dayNight "scattered-thunderstorms-day" "scattered-thunderstorms-night"⟩
  | 99 => some ⟨"Nevihta z močno točo", .single "severe-thunderstorm"⟩
  | _ => none

/-- `getWeatherIcon(weatherCode, isDay)`:
`const weather = WEATHER_CODES[weatherCode] || WEATHER_CODES[0]`, then the
day/night pick.  The inner `none` branch models the TypeError JavaScript
would raise if code 0 were absent from the catalog too; it is unreachable
because `WEATHER_CODES 0` is `some`. -/
def getWeatherIcon (weatherCode : ℤ) (isDay : Bool := true) : String :=
  let weather :=
    match WEATHER_CODES weatherCode with
    | some w => w
    | none =>
        match WEATHER_CODES 0 with
        | some w => w
        | none => ⟨"", .single ""⟩
  match weather.icon with
  | .dayNight d n => if isDay then d else n
  | .single s => s

/-- `getWeatherDescription(weatherCode)`:
`WEATHER_CODES[weatherCode]?.description || 'Neznano'`.  JS `||` treats
the empty string as falsy, hence the inner test (no catalogued
description is empty, so that branch is inert on the real table). -/
def getWeatherDescription (weatherCode : ℤ) : String :=
  match WEATHER_CODES weatherCode with
  | some w => if w.description = "" then "Neznano" else w.description
  | none => "Neznano"

/-- The fields of `HistoricalWeatherData['daily']` that
`analyzeWeatherHistory` destructures (the remaining parallel arrays of
the interface are not read by the analysis and are omitted). -/
structure DailyWeather where
  time : List String
  weather_code : List ℤ
  temperature_2m_max : List JSNum
  temperature_2m_min : List JSNum
  precipitation_sum : List JSNum
deriving DecidableEq, Repr

/-- The slice of `HistoricalWeatherResponse` read by the analysis:
`daily` is an optional field (`daily?:` in the interface). -/
structure HistoricalWeatherResponse where
  daily : Option DailyWeather
deriving DecidableEq, Repr

/-- `acc[description] = (acc[description] || 0) + 1` on a JS object used
as an ordered map: string keys enumerate in insertion order, so the
accumulator is an association list — an existing key is bumped in place,
a new key is appended. -/
def bumpCount : List (String × ℕ) → String → List (String × ℕ)
  | [], d => [(d, 1)]
  | (k, n) :: rest, d =>
      if k = d then (k, n + 1) :: rest else (k, n) :: bumpCount rest d

/-- The weather-type frequency table:
`weatherCodes.reduce((acc, code) => { acc[desc(code)]++ }, {})`,
entries in first-encounter order. -/
def countWeatherTypes (weatherCodes : List ℤ) : List (String × ℕ) :=
  weatherCodes.foldl (fun acc code => bumpCount acc (getWeatherDescription code)) []

/-- One step of the stable descending-by-count sort:
place `x` before the first later-position entry whose count does not
exceed it. -/
def insertEntry (x : String × ℕ) : List (String × ℕ) → List (String × ℕ)
  | [] => [x]
  | y :: ys => if y.2 ≤ x.2 then x :: y :: ys else y :: insertEntry x ys

/-- `Object.entries(counts).sort(([,a],[,b]) => b - a)`: a stable sort,
descending by count.  ECMAScript guarantees `Array.prototype.sort` is
stable, and with the consistent comparator `b - a` every stable sort
produces the same list, so this stable insertion sort is the unique
observable result. -/
def sortEntries : List (String × ℕ) → List (String × ℕ)
  | [] => []
  | x :: xs => insertEntry x (sortEntries xs)

/-- The `extremes` object of the analysis summary. -/
structure WeatherExtremes where
  hottestDay : JSNum
  coldestDay : JSNum
  wettestDay : JSNum
deriving DecidableEq, Repr

/-- The `averages` object of the analysis summary. -/
structure WeatherAverages where
  avgMaxTemp : JSNum
  avgMinTemp : JSNum
  totalPrecipitation : JSNum
deriving DecidableEq, Repr

/-- The `weatherPatterns` object of the analysis summary. -/
structure WeatherPatterns where
  mostCommonWeather : String
  mostCommonWeatherDays : ℕ
  totalDays : ℕ
deriving DecidableEq, Repr

/-- The return object of `analyzeWeatherHistory`. -/
structure WeatherSummary where
  extremes : WeatherExtremes
  averages : WeatherAverages
  weatherPatterns : WeatherPatterns
deriving DecidableEq, Repr

open JSNum in
/-- `analyzeWeatherHistory(historicalData)`:
`if (!historicalData.daily) return null;` then extremes via
`Math.max`/`Math.min` spreads, averages via `reduce`/`length`, the
frequency table via `reduce` into an object, and
`Object.entries(...).sort(([,a],[,b]) => b - a)[0]` for the most common
weather (`undefined`, modelled `none`, when the table is empty). -/
def analyzeWeatherHistory (historicalData : HistoricalWeatherResponse) :
    Option WeatherSummary :=
  match historicalData.daily with
  | none => none
  | some daily =>
    let maxTemps := daily.temperature_2m_max
    let minTemps := daily.temperature_2m_min
    let precipitation := daily.precipitation_sum
    let weatherCodes := daily.weather_code
    let hottestDay := jsMaxList maxTemps
    let coldestDay := jsMinList minTemps
    let wettestDay := jsMaxList precipitation
    let avgMaxTemp := jsDiv (jsSum maxTemps) (num maxTemps.length)
    let avgMinTemp := jsDiv (jsSum minTemps) (num minTemps.length)
    let totalPrecipitation := jsSum precipitation
    let weatherTypeCounts := countWeatherTypes weatherCodes
    let mostCommonWeather := (sortEntries weatherTypeCounts).head?
    some
      { extremes :=
          { hottestDay := jsRound hottestDay
            coldestDay := jsRound coldestDay
            wettestDay := jsDiv (jsRound (jsMul wettestDay (num 10))) (num 10) }
        averages :=
          { avgMaxTemp := jsRound avgMaxTemp
            avgMinTemp := jsRound avgMinTemp
            totalPrecipitation :=
              jsDiv (jsRound (jsMul totalPrecipitation (num 10))) (num 10) }
        weatherPatterns :=
          { mostCommonWeather :=
              match mostCommonWeather with
              | some e => e.1
              | none => "Neznano"
            mostCommonWeatherDays :=
              match mostCommonWeather with
              | some e => e.2
              | none => 0
            totalDays := weatherCodes.length } }

/-! ## Specification-side definitions -/

/-- Round half toward positive infinity — the rounding `Math.round`
performs on finite values. -/
def roundHalfUpQ (x : ℚ) : ℤ := ⌊x + 1/2⌋

/-- Round half away from zero, the convention the specification
prescribes for `.5` boundaries. -/
def roundHalfAwayQ (x : ℚ) : ℤ := if 0 ≤ x then ⌊x + 1/2⌋ else -⌊-x + 1/2⌋

/-- Number of occurrences of the string `d` in `ds`. -/
def occCount (ds : List String) (d : String) : ℕ :=
  (ds.filter (fun x => x = d)).length

/-- Index of the first occurrence of `d` in `ds` (`ds.length` if absent). -/
def firstIdx (ds : List String) (d : String) : ℕ :=
  ds.findIdx (fun x => x = d)

/-- Number of days of a series whose weather code resolves to the
description `d` (exact string match). -/
def descCount (codes : List ℤ) (d : String) : ℕ :=
  (codes.filter (fun c => getWeatherDescription c = d)).length

/-- Index of the first day of a series whose weather code resolves to
the description `d`. -/
def firstDescIdx (codes : List ℤ) (d : String) : ℕ :=
  codes.findIdx (fun c => getWeatherDescription c = d)

/-- Association-list lookup with default `0` — the reading map of the
frequency table. -/
def getCount : List (String × ℕ) → String → ℕ
  | [], _ => 0
  | (k, n) :: rest, d => if k = d then n else getCount rest d

/-- First entry of maximal count in a list of `(description, count)`
entries: on ties the earlier entry wins. -/
def firstMax : List (String × ℕ) → Option (String × ℕ)
  | [] => none
  | x :: xs =>
      match firstMax xs with
      | none => some x
      | some y => if x.2 < y.2 then some y else some x

/-- The frequency table of a list of descriptions (the abstract form of
`countWeatherTypes`, which applies it to the resolved codes). -/
def countOcc (ds : List String) : List (String × ℕ) :=
  ds.foldl bumpCount []

/-! ## Lemmas: JSNum folds on finite values -/

namespace JSNum

theorem foldl_jsMax_num (l : List ℚ) (a : ℚ) :
    (l.map num).foldl jsMax (num a) = num (l.foldl max a) := by
  induction l generalizing a with
  | nil => rfl
  | cons x xs ih => simpa [jsMax] using ih (max a x)

theorem jsMaxList_map (q : ℚ) (l : List ℚ) :
    jsMaxList ((q :: l).map num) = num (l.foldl max q) := by
  simpa [jsMaxList, jsMax] using foldl_jsMax_num l q

theorem foldl_jsMin_num (l : List ℚ) (a : ℚ) :
    (l.map num).foldl jsMin (num a) = num (l.foldl min a) := by
  induction l generalizing a with
  | nil => rfl
  | cons x xs ih => simpa [jsMin] using ih (min a x)

theorem jsMinList_map (q : ℚ) (l : List ℚ) :
    jsMinList ((q :: l).map num) = num (l.foldl min q) := by
  simpa [jsMinList, jsMin] using foldl_jsMin_num l q

theorem foldl_jsAdd_num (l : List ℚ) (a : ℚ) :
    (l.map num).foldl jsAdd (num a) = num (l.foldl (· + ·) a) := by
  induction l generalizing a with
  | nil => rfl
  | cons x xs ih => simpa [jsAdd] using ih (a + x)

theorem foldl_add_eq_sum (l : List ℚ) (a : ℚ) :
    l.foldl (· + ·) a = a + l.sum := by
  induction l generalizing a with
  | nil => simp
  | cons x xs ih => simp [ih (a + x), add_assoc]

theorem jsSum_map (l : List ℚ) : jsSum (l.map num) = num l.sum := by
  simp [jsSum, foldl_jsAdd_num, foldl_add_eq_sum]

theorem foldl_max_mem (l : List ℚ) (a : ℚ) :
    l.foldl max a = a ∨ l.foldl max a ∈ l := by
  induction l generalizing a with
  | nil => simp
  | cons x xs ih =>
      simp only [List.foldl_cons]
      rcases ih (max a x) with h | h
      · rcases max_choice a x with hm | hm
        · rw [hm] at h ⊢
          exact Or.inl h
        · rw [hm] at h ⊢
          refine Or.inr ?_
          rw [h]
          exact List.mem_cons_self x xs
      · exact Or.inr (List.mem_cons_of_mem x h)

theorem le_foldl_max (l : List ℚ) (a : ℚ) :
    a ≤ l.foldl max a ∧ ∀ x ∈ l, x ≤ l.foldl max a := by
  induction l generalizing a with
  | nil => simp
  | cons x xs ih =>
      obtain ⟨h1, h2⟩ := ih (max a x)
      refine ⟨le_trans (le_max_left a x) h1, ?_⟩
      intro y hy
      rcases List.mem_cons.mp hy with rfl | hy
      · exact le_trans (le_max_right a y) h1
      · exact h2 y hy

theorem foldl_min_mem (l : List ℚ) (a : ℚ) :
    l.foldl min a = a ∨ l.foldl min a ∈ l := by
  induction l generalizing a with
  | nil => simp
  | cons x xs ih =>
      simp only [List.foldl_cons]
      rcases ih (min a x) with h | h
      · rcases min_choice a x with hm | hm
        · rw [hm] at h ⊢
          exact Or.inl h
        · rw [hm] at h ⊢
          refine Or.inr ?_
          rw [h]
          exact List.mem_cons_self x xs
      · exact Or.inr (List.mem_cons_of_mem x h)

theorem foldl_min_le (l : List ℚ) (a : ℚ) :
    l.foldl min a ≤ a ∧ ∀ x ∈ l, l.foldl min a ≤ x := by
  induction l generalizing a with
  | nil => simp
  | cons x xs ih =>
      obtain ⟨h1, h2⟩ := ih (min a x)
      refine ⟨le_trans h1 (min_le_left a x), ?_⟩
      intro y hy
      rcases List.mem_cons.mp hy with rfl | hy
      · exact le_trans h1 (min_le_right a y)
      · exact h2 y hy

theorem jsRound_num (q : ℚ) : jsRound (num q) = num (roundHalfUpQ q) := rfl

end JSNum

/-! ## Lemmas: the frequency table -/

theorem getCount_bumpCount (l : List (String × ℕ)) (d e : String) :
    getCount (bumpCount l d) e =
      if e = d then getCount l d + 1 else getCount l e := by
  induction l with
  | nil =>
      by_cases h : e = d
      · simp [bumpCount, getCount, h]
      · simp [bumpCount, getCount, h, Ne.symm h]
  | cons p rest ih =>
      obtain ⟨k, n⟩ := p
      by_cases hkd : k = d
      · subst hkd
        by_cases hek : e = k
        · simp [bumpCount, getCount, hek]
        · simp [bumpCount, getCount, hek, Ne.symm hek]
      · have hb : bumpCount ((k, n) :: rest) d = (k, n) :: bumpCount rest d := by
          simp [bumpCount, hkd]
        rw [hb]
        by_cases hek : e = d
        · subst hek
          simp [getCount, hkd, ih]
        · by_cases hke : k = e
          · simp [getCount, hke, hek]
          · simp [getCount, hke, hek, ih]

theorem keys_bumpCount (l : List (String × ℕ)) (d : String) :
    (bumpCount l d).map Prod.fst =
      if d ∈ l.map Prod.fst then l.map Prod.fst
      else l.map Prod.fst ++ [d] := by
  induction l with
  | nil => simp [bumpCount]
  | cons p rest ih =>
      obtain ⟨k, n⟩ := p
      by_cases hkd : k = d
      · simp [bumpCount, hkd]
      · by_cases hd : d ∈ rest.map Prod.fst <;>
          simp [bumpCount, hkd, Ne.symm hkd, hd, ih]

theorem mem_bumpCount_key (l : List (String × ℕ)) (d : String)
    (p : String × ℕ) (hp : p ∈ bumpCount l d) : p ∈ l ∨ p.1 = d := by
  induction l with
  | nil =>
      simp [bumpCount] at hp
      simp [hp]
  | cons q rest ih =>
      obtain ⟨k, n⟩ := q
      by_cases hkd : k = d
      · simp [bumpCount, hkd] at hp
        rcases hp with rfl | hp
        · exact Or.inr rfl
        · exact Or.inl (List.mem_cons_of_mem _ hp)
      · simp [bumpCount, hkd] at hp
        rcases hp with rfl | hp
        · exact Or.inl (List.mem_cons_self _ _)
        · rcases ih hp with h | h
          · exact Or.inl (List.mem_cons_of_mem _ h)
          · exact Or.inr h

theorem bumpCount_pos (l : List (String × ℕ)) (d : String)
    (h : ∀ q ∈ l, 0 < q.2) : ∀ p ∈ bumpCount l d, 0 < p.2 := by
  induction l with
  | nil =>
      intro p hp
      simp [bumpCount] at hp
      simp [hp]
  | cons q rest ih =>
      obtain ⟨k, n⟩ := q
      intro p hp
      by_cases hkd : k = d
      · simp [bumpCount, hkd] at hp
        rcases hp with rfl | hp
        · simp
        · exact h p (List.mem_cons_of_mem _ hp)
      · simp [bumpCount, hkd] at hp
        rcases hp with rfl | hp
        · exact h (k, n) (List.mem_cons_self _ _)
        · exact ih (fun q hq => h q (List.mem_cons_of_mem _ hq)) p hp

theorem getCount_eq_of_mem (l : List (String × ℕ)) (k : String) (n : ℕ)
    (hnd : (l.map Prod.fst).Nodup) (h : (k, n) ∈ l) : getCount l k = n := by
  induction l with
  | nil => simp at h
  | cons q rest ih =>
      obtain ⟨k', n'⟩ := q
      simp only [List.map_cons, List.nodup_cons] at hnd
      rcases List.mem_cons.mp h with heq | hmem
      · rw [Prod.mk.injEq] at heq
        simp [getCount, heq.1, heq.2]
      · have hk : k' ≠ k := by
          intro hk
          exact hnd.1 (hk ▸ List.mem_map_of_mem Prod.fst hmem)
        simp [getCount, hk, ih hnd.2 hmem]

theorem getCount_mem (l : List (String × ℕ)) (k : String)
    (h : k ∈ l.map Prod.fst) : (k, getCount l k) ∈ l := by
  induction l with
  | nil => simp at h
  | cons q rest ih =>
      obtain ⟨k', n'⟩ := q
      by_cases hk : k' = k
      · subst hk
        simp [getCount]
      · simp only [List.map_cons, List.mem_cons] at h
        rcases h with h | h
        · exact absurd h.symm hk
        · exact List.mem_cons_of_mem _ (by simpa [getCount, hk] using ih h)

theorem occCount_append_singleton (ds : List String) (d e : String) :
    occCount (ds ++ [d]) e = occCount ds e + if e = d then 1 else 0 := by
  by_cases h : e = d
  · simp [occCount, List.filter_append, h]
  · simp [occCount, List.filter_append, h, Ne.symm h]

theorem occCount_pos_iff (ds : List String) (e : String) :
    0 < occCount ds e ↔ e ∈ ds := by
  induction ds with
  | nil => simp [occCount]
  | cons x xs ih =>
      by_cases h : x = e
      · simp [occCount, List.filter_cons, h]
      · simpa [occCount, List.filter_cons, h, Ne.symm h] using ih

theorem firstIdx_append_of_mem (ds l₂ : List String) (e : String)
    (h : e ∈ ds) : firstIdx (ds ++ l₂) e = firstIdx ds e := by
  unfold firstIdx
  rw [List.findIdx_append, if_pos]
  exact List.findIdx_lt_length_of_exists ⟨e, h, by simp⟩

theorem firstIdx_lt_length (ds : List String) (e : String) (h : e ∈ ds) :
    firstIdx ds e < ds.length :=
  List.findIdx_lt_length_of_exists ⟨e, h, by simp⟩

theorem firstIdx_append_self (ds : List String) (e : String) (h : e ∉ ds) :
    firstIdx (ds ++ [e]) e = ds.length := by
  unfold firstIdx
  rw [List.findIdx_append, if_neg, List.findIdx_cons]
  · simp
  · intro hlt
    obtain ⟨x, hx, hxe⟩ := List.findIdx_lt_length.mp hlt
    exact h ((decide_eq_true_eq.mp hxe) ▸ hx)

theorem countOcc_append (ds : List String) (d : String) :
    countOcc (ds ++ [d]) = bumpCount (countOcc ds) d := by
  simp [countOcc, List.foldl_append]

/-- The full invariant of the frequency table over a processed list of
descriptions: counts are the occurrence counts, entries are positive,
keys are exactly the distinct descriptions, without duplicates, ordered
by first occurrence. -/
theorem countOcc_inv (ds : List String) :
    (∀ e, getCount (countOcc ds) e = occCount ds e) ∧
    (∀ p ∈ countOcc ds, 0 < p.2) ∧
    (∀ e, e ∈ (countOcc ds).map Prod.fst ↔ e ∈ ds) ∧
    ((countOcc ds).map Prod.fst).Nodup ∧
    ((countOcc ds).map Prod.fst).Pairwise
      (fun a b => firstIdx ds a < firstIdx ds b) := by
  induction ds using List.reverseRecOn with
  | nil => simp [countOcc, occCount, getCount]
  | append_singleton ds d ih =>
      obtain ⟨hcnt, hpos, hmem, hnodup, hpair⟩ := ih
      rw [countOcc_append]
      refine ⟨?_, ?_, ?_, ?_, ?_⟩
      · intro e
        rw [getCount_bumpCount, occCount_append_singleton]
        by_cases h : e = d <;> simp [h, hcnt]
      · exact bumpCount_pos _ _ hpos
      · intro e
        rw [keys_bumpCount]
        by_cases hd : d ∈ (countOcc ds).map Prod.fst
        · rw [if_pos hd, List.mem_append, List.mem_singleton, hmem e]
          constructor
          · exact Or.inl
          · rintro (h | rfl)
            · exact h
            · exact (hmem e).mp hd
        · rw [if_neg hd]
          simp [List.mem_append, hmem e]
      · rw [keys_bumpCount]
        by_cases hd : d ∈ (countOcc ds).map Prod.fst
        · rw [if_pos hd]
          exact hnodup
        · rw [if_neg hd]
          simp [List.nodup_append, hnodup, List.disjoint_singleton, hd]
      · rw [keys_bumpCount]
        by_cases hd : d ∈ (countOcc ds).map Prod.fst
        · rw [if_pos hd]
          refine hpair.imp_of_mem ?_
          intro a b ha hb hab
          rw [firstIdx_append_of_mem ds [d] a ((hmem a).mp ha),
              firstIdx_append_of_mem ds [d] b ((hmem b).mp hb)]
          exact hab
        · rw [if_neg hd]
          rw [List.pairwise_append]
          refine ⟨hpair.imp_of_mem ?_, by simp, ?_⟩
          · intro a b ha hb hab
            rw [firstIdx_append_of_mem ds [d] a ((hmem a).mp ha),
                firstIdx_append_of_mem ds [d] b ((hmem b).mp hb)]
            exact hab
          · intro a ha b hb
            rw [List.mem_singleton] at hb
            have had : a ∈ ds := (hmem a).mp ha
            have hdd : d ∉ ds := fun hmm => hd ((hmem d).mpr hmm)
            rw [hb, firstIdx_append_of_mem ds [d] a had,
                firstIdx_append_self ds d hdd]
            exact firstIdx_lt_length ds a had

/-! ## Lemmas: first maximum and the stable sort -/

theorem firstMax_isSome (x : String × ℕ) (xs : List (String × ℕ)) :
    ∃ m, firstMax (x :: xs) = some m := by
  unfold firstMax
  cases hx : firstMax xs with
  | none => exact ⟨x, rfl⟩
  | some y =>
      by_cases h : x.2 < y.2
      · exact ⟨y, by simp [h]⟩
      · exact ⟨x, by simp [h]⟩

theorem firstMax_eq_none (l : List (String × ℕ)) (h : firstMax l = none) :
    l = [] := by
  cases l with
  | nil => rfl
  | cons x xs =>
      obtain ⟨m, hm⟩ := firstMax_isSome x xs
      rw [hm] at h
      exact absurd h (by simp)

theorem firstMax_cons_none (x : String × ℕ) (xs : List (String × ℕ))
    (hx : firstMax xs = none) : firstMax (x :: xs) = some x := by
  unfold firstMax
  rw [hx]

theorem firstMax_cons_some (x y : String × ℕ) (xs : List (String × ℕ))
    (hx : firstMax xs = some y) :
    firstMax (x :: xs) = if x.2 < y.2 then some y else some x := by
  unfold firstMax
  rw [hx]

theorem firstMax_mem (l : List (String × ℕ)) (m : String × ℕ)
    (h : firstMax l = some m) : m ∈ l := by
  induction l with
  | nil => simp [firstMax] at h
  | cons x xs ih =>
      cases hx : firstMax xs with
      | none =>
          rw [firstMax_cons_none x xs hx, Option.some.injEq] at h
          subst h
          exact List.mem_cons_self x xs
      | some y =>
          rw [firstMax_cons_some x y xs hx] at h
          by_cases hlt : x.2 < y.2
          · rw [if_pos hlt, Option.some.injEq] at h
            subst h
            exact List.mem_cons_of_mem _ (ih hx)
          · rw [if_neg hlt, Option.some.injEq] at h
            subst h
            exact List.mem_cons_self x xs

theorem firstMax_le (l : List (String × ℕ)) (m : String × ℕ)
    (h : firstMax l = some m) : ∀ p ∈ l, p.2 ≤ m.2 := by
  induction l generalizing m with
  | nil => simp
  | cons x xs ih =>
      intro p hp
      cases hx : firstMax xs with
      | none =>
          rw [firstMax_cons_none x xs hx, Option.some.injEq] at h
          subst h
          have hxs : xs = [] := firstMax_eq_none xs hx
          subst hxs
          rcases List.mem_cons.mp hp with rfl | hp
          · exact le_refl _
          · simp at hp
      | some y =>
          rw [firstMax_cons_some x y xs hx] at h
          by_cases hlt : x.2 < y.2
          · rw [if_pos hlt, Option.some.injEq] at h
            subst h
            rcases List.mem_cons.mp hp with rfl | hp
            · exact le_of_lt hlt
            · exact ih y hx p hp
          · rw [if_neg hlt, Option.some.injEq] at h
            subst h
            rcases List.mem_cons.mp hp with rfl | hp
            · exact le_refl _
            · exact le_trans (ih y hx p hp) (not_lt.mp hlt)

theorem firstMax_split (l : List (String × ℕ)) (m : String × ℕ)
    (h : firstMax l = some m) :
    ∃ l₁ l₂, l = l₁ ++ m :: l₂ ∧ ∀ p ∈ l₁, p.2 < m.2 := by
  induction l with
  | nil => simp [firstMax] at h
  | cons x xs ih =>
      cases hx : firstMax xs with
      | none =>
          rw [firstMax_cons_none x xs hx, Option.some.injEq] at h
          subst h
          exact ⟨[], xs, rfl, by simp⟩
      | some y =>
          rw [firstMax_cons_some x y xs hx] at h
          by_cases hlt : x.2 < y.2
          · rw [if_pos hlt, Option.some.injEq] at h
            subst h
            obtain ⟨l₁, l₂, hsplit, hpre⟩ := ih hx
            refine ⟨x :: l₁, l₂, by rw [hsplit, List.cons_append], ?_⟩
            intro p hp
            rcases List.mem_cons.mp hp with rfl | hp
            · exact hlt
            · exact hpre p hp
          · rw [if_neg hlt, Option.some.injEq] at h
            subst h
            exact ⟨[], xs, rfl, by simp⟩

theorem insertEntry_ne_nil (x : String × ℕ) (l : List (String × ℕ)) :
    insertEntry x l ≠ [] := by
  cases l with
  | nil => simp [insertEntry]
  | cons y ys =>
      unfold insertEntry
      split <;> simp

theorem sortEntries_eq_nil_iff (l : List (String × ℕ)) :
    sortEntries l = [] ↔ l = [] := by
  cases l with
  | nil => simp [sortEntries]
  | cons x xs => simp [sortEntries, insertEntry_ne_nil]

/-- The head of the stable descending sort is the first entry of maximal
count. -/
theorem head_sortEntries (l : List (String × ℕ)) :
    (sortEntries l).head? = firstMax l := by
  induction l with
  | nil => rfl
  | cons x xs ih =>
      show (insertEntry x (sortEntries xs)).head? = firstMax (x :: xs)
      cases hs : sortEntries xs with
      | nil =>
          have hx : firstMax xs = none := by rw [← ih, hs]; rfl
          rw [firstMax_cons_none x xs hx]
          simp [insertEntry]
      | cons y ys =>
          have hx : firstMax xs = some y := by rw [← ih, hs]; rfl
          rw [firstMax_cons_some x y xs hx]
          unfold insertEntry
          by_cases hle : y.2 ≤ x.2
          · rw [if_pos hle, if_neg (not_lt.mpr hle)]
            rfl
          · rw [if_neg hle, if_pos (not_le.mp hle)]
            rfl

/-! ## Lemmas: bridging codes and descriptions -/

theorem countWeatherTypes_eq_countOcc (codes : List ℤ) :
    countWeatherTypes codes = countOcc (codes.map getWeatherDescription) := by
  simp [countWeatherTypes, countOcc, List.foldl_map]

theorem occCount_map_desc (codes : List ℤ) (e : String) :
    occCount (codes.map getWeatherDescription) e = descCount codes e := by
  rw [occCount, descCount, List.filter_map, List.length_map]
  rfl

theorem firstIdx_map_desc (codes : List ℤ) (e : String) :
    firstIdx (codes.map getWeatherDescription) e = firstDescIdx codes e := by
  unfold firstIdx firstDescIdx
  induction codes with
  | nil => rfl
  | cons c cs ih =>
      rw [List.map_cons, List.findIdx_cons, List.findIdx_cons, ih]

/-! ## Lemmas: the catalog -/

/-- Data facts holding for every entry of the catalog: descriptions and
icon names are non-empty, and every day/night pair has distinct
variants. -/
theorem catalog_entry_facts (c : ℤ) (e : WeatherEntry)
    (h : WEATHER_CODES c = some e) :
    e.description ≠ "" ∧
    (match e.icon with
     | .single s => s ≠ ""
     | .dayNight d n => d ≠ "" ∧ n ≠ "" ∧ d ≠ n) := by
  unfold WEATHER_CODES at h
  split at h <;> cases h <;> decide

theorem getWeatherDescription_absent (c : ℤ) (h : WEATHER_CODES c = none) :
    getWeatherDescription c = "Neznano" := by
  unfold getWeatherDescription
  rw [h]

theorem getWeatherIcon_absent (c : ℤ) (h : WEATHER_CODES c = none)
    (b : Bool) : getWeatherIcon c b = getWeatherIcon 0 b := by
  unfold getWeatherIcon
  rw [h]
  rfl

theorem getWeatherIcon_entry (c : ℤ) (e : WeatherEntry)
    (h : WEATHER_CODES c = some e) (b : Bool) :
    getWeatherIcon c b =
      match e.icon with
      | .dayNight d n => if b then d else n
      | .single s => s := by
  unfold getWeatherIcon
  rw [h]

theorem getWeatherDescription_ne_empty (c : ℤ) :
    getWeatherDescription c ≠ "" := by
  unfold getWeatherDescription
  cases h : WEATHER_CODES c with
  | none => decide
  | some w =>
      show (if w.description = "" then "Neznano" else w.description) ≠ ""
      by_cases hw : w.description = ""
      · rw [if_pos hw]
        decide
      · rw [if_neg hw]
        exact hw

theorem getWeatherIcon_ne_empty (c : ℤ) (b : Bool) :
    getWeatherIcon c b ≠ "" := by
  cases h : WEATHER_CODES c with
  | none =>
      rw [getWeatherIcon_absent c h b]
      cases b <;> decide
  | some w =>
      rw [getWeatherIcon_entry c w h b]
      obtain ⟨-, hicon⟩ := catalog_entry_facts c w h
      cases hi : w.icon with
      | single s =>
          rw [hi] at hicon
          exact hicon
      | dayNight d n =>
          rw [hi] at hicon
          cases b
          · exact hicon.2.1
          · exact hicon.1

/-! ## Lemmas: arithmetic helpers and the analysis equation -/

namespace JSNum

theorem jsMul_num (a b : ℚ) : jsMul (num a) (num b) = num (a * b) := rfl

theorem jsDiv_num (a b : ℚ) (hb : b ≠ 0) :
    jsDiv (num a) (num b) = num (a / b) := by
  have h : jsDiv (num a) (num b) =
      if b = 0 then (if a = 0 then nan else if a < 0 then ninf else inf)
      else num (a / b) := rfl
  rw [h, if_neg hb]

theorem jsMaxList_singleton (v : ℚ) : jsMaxList [num v] = num v := rfl

theorem jsMinList_singleton (v : ℚ) : jsMinList [num v] = num v := rfl

theorem jsSum_singleton (v : ℚ) : jsSum [num v] = num v := by
  show jsAdd (num 0) (num v) = num v
  show num (0 + v) = num v
  rw [zero_add]

end JSNum

theorem roundHalfUpQ_half (k : ℤ) : roundHalfUpQ ((k : ℚ) + 1/2) = k + 1 := by
  unfold roundHalfUpQ
  have h : (k : ℚ) + 1/2 + 1/2 = ((k + 1 : ℤ) : ℚ) := by
    push_cast
    ring
  rw [h, Int.floor_intCast]

open JSNum in
/-- The value of `analyzeWeatherHistory` on a present daily series,
with the most-common selection expressed through `firstMax` (the head of
the stable descending sort). -/
theorem analyzeWeatherHistory_some (daily : DailyWeather) :
    analyzeWeatherHistory ⟨some daily⟩ = some
      { extremes :=
          { hottestDay := jsRound (jsMaxList daily.temperature_2m_max)
            coldestDay := jsRound (jsMinList daily.temperature_2m_min)
            wettestDay :=
              jsDiv (jsRound (jsMul (jsMaxList daily.precipitation_sum)
                (num 10))) (num 10) }
        averages :=
          { avgMaxTemp := jsRound (jsDiv (jsSum daily.temperature_2m_max)
              (num daily.temperature_2m_max.length))
            avgMinTemp := jsRound (jsDiv (jsSum daily.temperature_2m_min)
              (num daily.temperature_2m_min.length))
            totalPrecipitation :=
              jsDiv (jsRound (jsMul (jsSum daily.precipitation_sum)
                (num 10))) (num 10) }
        weatherPatterns :=
          { mostCommonWeather :=
              match firstMax (countWeatherTypes daily.weather_code) with
              | some e => e.1
              | none => "Neznano"
            mostCommonWeatherDays :=
              match firstMax (countWeatherTypes daily.weather_code) with
              | some e => e.2
              | none => 0
            totalDays := daily.weather_code.length } } := by
  simp only [analyzeWeatherHistory]
  rw [head_sortEntries]

/-- Projections of the summary when the frequency table has a first
maximum. -/
theorem analyze_fields_of_firstMax (daily : DailyWeather) (m : String × ℕ)
    (hFM : firstMax (countWeatherTypes daily.weather_code) = some m) :
    ∃ s, analyzeWeatherHistory ⟨some daily⟩ = some s ∧
      s.weatherPatterns.mostCommonWeather = m.1 ∧
      s.weatherPatterns.mostCommonWeatherDays = m.2 ∧
      s.weatherPatterns.totalDays = daily.weather_code.length := by
  have heq := analyzeWeatherHistory_some daily
  rw [hFM] at heq
  exact ⟨_, heq, rfl, rfl, rfl⟩

/-- The selected most-common entry: it names a description occurring in
the series, carries its exact match count, that count is maximal, and on
ties the selected description is the one first encountered in index
order. -/
theorem mostCommon_props (codes : List ℤ) (hne : codes ≠ []) :
    ∃ m, firstMax (countWeatherTypes codes) = some m ∧
      (∃ c ∈ codes, getWeatherDescription c = m.1) ∧
      m.2 = descCount codes m.1 ∧
      1 ≤ m.2 ∧
      (∀ d, descCount codes d ≤ m.2) ∧
      (∀ d, descCount codes d = m.2 →
        firstDescIdx codes m.1 ≤ firstDescIdx codes d) := by
  obtain ⟨hcnt, hpos, hmem, hnodup, hpair⟩ :=
    countOcc_inv (codes.map getWeatherDescription)
  have hdsne : codes.map getWeatherDescription ≠ [] := by
    simpa [List.map_eq_nil_iff] using hne
  obtain ⟨e0, he0⟩ := List.exists_mem_of_ne_nil _ hdsne
  cases hcs : countOcc (codes.map getWeatherDescription) with
  | nil =>
      exfalso
      have h0 : e0 ∈ (countOcc (codes.map getWeatherDescription)).map Prod.fst :=
        (hmem e0).mpr he0
      rw [hcs] at h0
      simp at h0
  | cons x xs =>
      obtain ⟨m, hm⟩ := firstMax_isSome x xs
      have hFM : firstMax (countOcc (codes.map getWeatherDescription)) = some m := by
        rw [hcs]
        exact hm
      have hmm : m ∈ countOcc (codes.map getWeatherDescription) :=
        firstMax_mem _ _ hFM
      have hkey : m.1 ∈ (countOcc (codes.map getWeatherDescription)).map Prod.fst :=
        List.mem_map_of_mem Prod.fst hmm
      have hm1ds : m.1 ∈ codes.map getWeatherDescription := (hmem m.1).mp hkey
      have hgc : getCount (countOcc (codes.map getWeatherDescription)) m.1 = m.2 :=
        getCount_eq_of_mem _ m.1 m.2 hnodup (by simpa using hmm)
      have hday : m.2 = descCount codes m.1 := by
        rw [← occCount_map_desc codes m.1, ← hcnt m.1, hgc]
      have hle : ∀ d, descCount codes d ≤ m.2 := by
        intro d
        by_cases hz : descCount codes d = 0
        · simp [hz]
        · have hposd : 0 < occCount (codes.map getWeatherDescription) d := by
            rw [occCount_map_desc]
            exact Nat.pos_of_ne_zero hz
          have hdds : d ∈ codes.map getWeatherDescription :=
            (occCount_pos_iff _ d).mp hposd
          have hdkey : d ∈ (countOcc (codes.map getWeatherDescription)).map Prod.fst :=
            (hmem d).mpr hdds
          have hmem2 : (d, getCount (countOcc (codes.map getWeatherDescription)) d) ∈
              countOcc (codes.map getWeatherDescription) :=
            getCount_mem _ d hdkey
          have hb := firstMax_le _ _ hFM _ hmem2
          calc descCount codes d
              = occCount (codes.map getWeatherDescription) d :=
                (occCount_map_desc codes d).symm
            _ = getCount (countOcc (codes.map getWeatherDescription)) d :=
                (hcnt d).symm
            _ ≤ m.2 := hb
      have hone : 1 ≤ m.2 := hpos m hmm
      have htie : ∀ d, descCount codes d = m.2 →
          firstDescIdx codes m.1 ≤ firstDescIdx codes d := by
        intro d hdc
        by_cases hdm : d = m.1
        · rw [hdm]
        · have hposd : 0 < occCount (codes.map getWeatherDescription) d := by
            rw [occCount_map_desc, hdc]
            exact hone
          have hdds : d ∈ codes.map getWeatherDescription :=
            (occCount_pos_iff _ d).mp hposd
          have hdkey : d ∈ (countOcc (codes.map getWeatherDescription)).map Prod.fst :=
            (hmem d).mpr hdds
          have hmem2 : (d, getCount (countOcc (codes.map getWeatherDescription)) d) ∈
              countOcc (codes.map getWeatherDescription) :=
            getCount_mem _ d hdkey
          have hgcd : getCount (countOcc (codes.map getWeatherDescription)) d = m.2 := by
            rw [hcnt d, occCount_map_desc]
            exact hdc
          obtain ⟨l₁, l₂, hsplit, hpre⟩ := firstMax_split _ _ hFM
          rw [hsplit] at hmem2
          rcases List.mem_append.mp hmem2 with h1 | h2
          · have hlt : getCount (l₁ ++ m :: l₂) d < m.2 := hpre _ h1
            rw [hsplit] at hgcd
            rw [hgcd] at hlt
            exact absurd hlt (lt_irrefl m.2)
          · rcases List.mem_cons.mp h2 with heq | h2
            · exact absurd (congrArg Prod.fst heq) hdm
            · have hpair2 := hpair
              rw [hsplit, List.map_append, List.map_cons] at hpair2
              have hrel := (List.pairwise_append.mp hpair2).2.1
              have hlt := (List.pairwise_cons.mp hrel).1 d
                (List.mem_map_of_mem Prod.fst h2)
              have h4 : firstDescIdx codes m.1 < firstDescIdx codes d := by
                rw [← firstIdx_map_desc, ← firstIdx_map_desc]
                exact hlt
              exact le_of_lt h4
      have hex : ∃ c ∈ codes, getWeatherDescription c = m.1 := by
        obtain ⟨c, hc, hcd⟩ := List.mem_map.mp hm1ds
        exact ⟨c, hc, hcd⟩
      refine ⟨m, ?_, hex, hday, hone, hle, htie⟩
      rw [countWeatherTypes_eq_countOcc]
      exact hFM

/-! ## The claims -/

/-- C1: the claim says a historical response whose daily series carries
no daily data — in particular one whose five daily arrays are all
empty — makes `analyzeWeatherHistory` return `null`.  The code only
checks `!historicalData.daily`; with a present-but-empty daily object it
proceeds and returns a summary whose extremes are the infinities of the
empty `Math.max`/`Math.min` spreads and whose averages are `NaN`
(`0/0`).  This theorem evaluates the code at that failing input: the
result is a summary, not `null`. -/
theorem analyze_empty_daily_returns_summary :
    analyzeWeatherHistory { daily := some ⟨[], [], [], [], []⟩ } =
      some
        { extremes :=
            { hottestDay := .ninf, coldestDay := .inf, wettestDay := .ninf }
          averages :=
            { avgMaxTemp := .nan, avgMinTemp := .nan,
              totalPrecipitation := .num 0 }
          weatherPatterns :=
            { mostCommonWeather := "Neznano", mostCommonWeatherDays := 0,
              totalDays := 0 } } := by
  rw [analyzeWeatherHistory_some]
  norm_num [JSNum.jsMaxList, JSNum.jsMinList, JSNum.jsSum, JSNum.jsMul,
    JSNum.jsDiv, JSNum.jsRound, countWeatherTypes, firstMax]

/-- C5: the two fallbacks are asymmetric — for every code absent from
the catalog, `getWeatherDescription` returns the fixed label "Neznano"
(which is not the code-0 description), while `getWeatherIcon` returns
exactly the code-0 icon for both values of the day flag. -/
theorem describe_iconFor_fallback_asymmetry (c : ℤ)
    (h : WEATHER_CODES c = none) :
    getWeatherDescription c = "Neznano" ∧
      getWeatherDescription c ≠ getWeatherDescription 0 ∧
      ∀ b : Bool, getWeatherIcon c b = getWeatherIcon 0 b := by
  refine ⟨getWeatherDescription_absent c h, ?_, fun b => getWeatherIcon_absent c h b⟩
  rw [getWeatherDescription_absent c h]
  decide

/-- C5 witness at the absent code 9999. -/
theorem describe_iconFor_fallback_asymmetry_witness :
    getWeatherDescription 9999 = "Neznano" ∧
      getWeatherDescription 9999 ≠ getWeatherDescription 0 ∧
      ∀ b : Bool, getWeatherIcon 9999 b = getWeatherIcon 0 b :=
  describe_iconFor_fallback_asymmetry 9999 (by decide)

/-- C6: for every catalogued code with a day/night icon pair,
`getWeatherIcon` returns the day variant under `true` and the night
variant under `false`, and the two differ; for every catalogued code
with a single icon name the flag is irrelevant. -/
theorem iconFor_dayNight_selection (c : ℤ) (e : WeatherEntry)
    (h : WEATHER_CODES c = some e) :
    (∀ d n, e.icon = .dayNight d n →
        getWeatherIcon c true = d ∧ getWeatherIcon c false = n ∧
        getWeatherIcon c true ≠ getWeatherIcon c false) ∧
    (∀ s, e.icon = .single s →
        getWeatherIcon c true = getWeatherIcon c false) := by
  obtain ⟨-, hicon⟩ := catalog_entry_facts c e h
  constructor
  · intro d n hdn
    rw [getWeatherIcon_entry c e h true, getWeatherIcon_entry c e h false, hdn]
    rw [hdn] at hicon
    exact ⟨rfl, rfl, hicon.2.2⟩
  · intro s hs
    rw [getWeatherIcon_entry c e h true, getWeatherIcon_entry c e h false, hs]

/-- C6 witness at the day/night code 0 and the single-icon code 95. -/
theorem iconFor_dayNight_selection_witness :
    getWeatherIcon 0 true ≠ getWeatherIcon 0 false ∧
      getWeatherIcon 95 true = getWeatherIcon 95 false := by
  constructor
  · exact ((iconFor_dayNight_selection 0
        ⟨"Jasno", .dayNight "clear-day" "clear-night"⟩ (by decide)).1
        "clear-day" "clear-night" rfl).2.2
  · exact (iconFor_dayNight_selection 95
        ⟨"Nevihta", .single "thunderstorms"⟩ (by decide)).2
        "thunderstorms" rfl

/-- C7: `getWeatherDescription` and `getWeatherIcon` are total over the
whole integer domain (in particular over [-1000, 1000]) and always
return a non-empty string; neither can fail. -/
theorem describe_iconFor_total_nonempty (c : ℤ) (b : Bool) :
    getWeatherDescription c ≠ "" ∧ getWeatherIcon c b ≠ "" :=
  ⟨getWeatherDescription_ne_empty c, getWeatherIcon_ne_empty c b⟩

/-- C7 witness: evaluation at a catalogued code, an absent code inside
[-1000, 1000], and both day flags. -/
theorem describe_iconFor_total_nonempty_witness :
    (getWeatherDescription 0 ≠ "" ∧ getWeatherIcon 0 true ≠ "") ∧
      (getWeatherDescription (-1000) ≠ "" ∧ getWeatherIcon (-1000) false ≠ "") :=
  ⟨describe_iconFor_total_nonempty 0 true,
   describe_iconFor_total_nonempty (-1000) false⟩

/-- C9: the three core functions are deterministic — equal inputs give
equal outputs on any two calls.  In this embedding they are pure total
functions over immutable values (as the source functions are: they read
no module state besides the constant `WEATHER_CODES` table and never
mutate their argument arrays), so referential transparency is two-run
equality. -/
theorem core_functions_deterministic :
    (∀ r₁ r₂ : HistoricalWeatherResponse, r₁ = r₂ →
        analyzeWeatherHistory r₁ = analyzeWeatherHistory r₂) ∧
      (∀ c₁ c₂ : ℤ, c₁ = c₂ →
        getWeatherDescription c₁ = getWeatherDescription c₂) ∧
      (∀ (c₁ c₂ : ℤ) (b : Bool), c₁ = c₂ →
        getWeatherIcon c₁ b = getWeatherIcon c₂ b) :=
  ⟨fun _ _ h => h ▸ rfl, fun _ _ h => h ▸ rfl, fun _ _ _ h => h ▸ rfl⟩

/-- C9 witness: two-run equality at concrete inputs. -/
theorem core_functions_deterministic_witness :
    analyzeWeatherHistory { daily := none } =
        analyzeWeatherHistory { daily := none } ∧
      getWeatherDescription 61 = getWeatherDescription 61 ∧
      getWeatherIcon 61 true = getWeatherIcon 61 true :=
  ⟨core_functions_deterministic.1 _ _ rfl,
   core_functions_deterministic.2.1 61 61 rfl,
   core_functions_deterministic.2.2 61 61 true rfl⟩

open JSNum in
/-- C2: on a non-empty daily series of finite values, `hottestDay` is the
maximum of `temperature_2m_max` rounded to the nearest integer,
`coldestDay` is the minimum of `temperature_2m_min` rounded to the
nearest integer, and `wettestDay` is the maximum of `precipitation_sum`
rounded to one decimal by multiply-by-10, round, divide-by-10. -/
theorem analyze_extremes_correct (t : List String) (codes : List ℤ)
    (q0 : ℚ) (qmax : List ℚ) (r0 : ℚ) (rmin : List ℚ)
    (p0 : ℚ) (psum : List ℚ) :
    ∃ s, analyzeWeatherHistory
        ⟨some ⟨t, codes, (q0 :: qmax).map num, (r0 :: rmin).map num,
          (p0 :: psum).map num⟩⟩ = some s ∧
      ∃ hi lo we : ℚ,
        (hi ∈ q0 :: qmax ∧ ∀ x ∈ q0 :: qmax, x ≤ hi) ∧
        (lo ∈ r0 :: rmin ∧ ∀ x ∈ r0 :: rmin, lo ≤ x) ∧
        (we ∈ p0 :: psum ∧ ∀ x ∈ p0 :: psum, x ≤ we) ∧
        s.extremes.hottestDay = num ((roundHalfUpQ hi : ℤ) : ℚ) ∧
        s.extremes.coldestDay = num ((roundHalfUpQ lo : ℤ) : ℚ) ∧
        s.extremes.wettestDay = num (((roundHalfUpQ (we * 10) : ℤ) : ℚ) / 10) := by
  refine ⟨_, analyzeWeatherHistory_some _, qmax.foldl max q0, rmin.foldl min r0,
    psum.foldl max p0, ⟨?_, ?_⟩, ⟨?_, ?_⟩, ⟨?_, ?_⟩, ?_, ?_, ?_⟩
  · rcases foldl_max_mem qmax q0 with h | h
    · rw [h]
      exact List.mem_cons_self _ _
    · exact List.mem_cons_of_mem _ h
  · intro x hx
    rcases List.mem_cons.mp hx with rfl | hx
    · exact (le_foldl_max qmax x).1
    · exact (le_foldl_max qmax q0).2 x hx
  · rcases foldl_min_mem rmin r0 with h | h
    · rw [h]
      exact List.mem_cons_self _ _
    · exact List.mem_cons_of_mem _ h
  · intro x hx
    rcases List.mem_cons.mp hx with rfl | hx
    · exact (foldl_min_le rmin x).1
    · exact (foldl_min_le rmin r0).2 x hx
  · rcases foldl_max_mem psum p0 with h | h
    · rw [h]
      exact List.mem_cons_self _ _
    · exact List.mem_cons_of_mem _ h
  · intro x hx
    rcases List.mem_cons.mp hx with rfl | hx
    · exact (le_foldl_max psum x).1
    · exact (le_foldl_max psum p0).2 x hx
  · show jsRound (jsMaxList ((q0 :: qmax).map num)) =
      num ((roundHalfUpQ (qmax.foldl max q0) : ℤ) : ℚ)
    rw [jsMaxList_map, jsRound_num]
  · show jsRound (jsMinList ((r0 :: rmin).map num)) =
      num ((roundHalfUpQ (rmin.foldl min r0) : ℤ) : ℚ)
    rw [jsMinList_map, jsRound_num]
  · show jsDiv (jsRound (jsMul (jsMaxList ((p0 :: psum).map num)) (num 10)))
        (num 10) =
      num (((roundHalfUpQ (psum.foldl max p0 * 10) : ℤ) : ℚ) / 10)
    rw [jsMaxList_map, jsMul_num, jsRound_num, jsDiv_num _ _ (by norm_num)]

open JSNum in
/-- C3: on a non-empty daily series of finite values, `avgMaxTemp` and
`avgMinTemp` are the arithmetic means of the temperature arrays rounded
to the nearest integer, and `totalPrecipitation` is the sum of
`precipitation_sum` rounded to one decimal by the same
multiply-by-10, round, divide-by-10 convention. -/
theorem analyze_averages_correct (t : List String) (codes : List ℤ)
    (q0 : ℚ) (qmax : List ℚ) (r0 : ℚ) (rmin : List ℚ)
    (p0 : ℚ) (psum : List ℚ) :
    ∃ s, analyzeWeatherHistory
        ⟨some ⟨t, codes, (q0 :: qmax).map num, (r0 :: rmin).map num,
          (p0 :: psum).map num⟩⟩ = some s ∧
      s.averages.avgMaxTemp =
        num ((roundHalfUpQ ((q0 :: qmax).sum / ((q0 :: qmax).length : ℚ)) : ℤ) : ℚ) ∧
      s.averages.avgMinTemp =
        num ((roundHalfUpQ ((r0 :: rmin).sum / ((r0 :: rmin).length : ℚ)) : ℤ) : ℚ) ∧
      s.averages.totalPrecipitation =
        num (((roundHalfUpQ ((p0 :: psum).sum * 10) : ℤ) : ℚ) / 10) := by
  refine ⟨_, analyzeWeatherHistory_some _, ?_, ?_, ?_⟩
  · show jsRound (jsDiv (jsSum ((q0 :: qmax).map num))
        (num (((q0 :: qmax).map num).length : ℚ))) = _
    rw [jsSum_map, List.length_map,
      jsDiv_num _ _ (Nat.cast_ne_zero.mpr (by simp)), jsRound_num]
  · show jsRound (jsDiv (jsSum ((r0 :: rmin).map num))
        (num (((r0 :: rmin).map num).length : ℚ))) = _
    rw [jsSum_map, List.length_map,
      jsDiv_num _ _ (Nat.cast_ne_zero.mpr (by simp)), jsRound_num]
  · show jsDiv (jsRound (jsMul (jsSum ((p0 :: psum).map num)) (num 10)))
        (num 10) = _
    rw [jsSum_map, jsMul_num, jsRound_num, jsDiv_num _ _ (by norm_num)]

/-- C4: on a non-empty series, `mostCommonWeather` is a description of
some code occurring in the series, `mostCommonWeatherDays` is its exact
match count, that count is the highest over all descriptions, and on a
tie the selected description is the one whose first occurrence index is
least (first encountered scanning in ascending order).  Determinism
across repeated calls is the two-run equality of C9. -/
theorem analyze_mostCommon_correct (daily : DailyWeather)
    (hne : daily.weather_code ≠ []) :
    ∃ s, analyzeWeatherHistory ⟨some daily⟩ = some s ∧
      (∃ c ∈ daily.weather_code,
          getWeatherDescription c = s.weatherPatterns.mostCommonWeather) ∧
      s.weatherPatterns.mostCommonWeatherDays =
        descCount daily.weather_code s.weatherPatterns.mostCommonWeather ∧
      (∀ d, descCount daily.weather_code d ≤
          s.weatherPatterns.mostCommonWeatherDays) ∧
      (∀ d, descCount daily.weather_code d =
            s.weatherPatterns.mostCommonWeatherDays →
          firstDescIdx daily.weather_code s.weatherPatterns.mostCommonWeather ≤
            firstDescIdx daily.weather_code d) := by
  obtain ⟨m, hFM, hex, hday, hone, hle, htie⟩ :=
    mostCommon_props daily.weather_code hne
  obtain ⟨s, hs, h1, h2, h3⟩ := analyze_fields_of_firstMax daily m hFM
  refine ⟨s, hs, ?_, ?_, ?_, ?_⟩
  · rw [h1]
    exact hex
  · rw [h1, h2]
    exact hday
  · intro d
    rw [h2]
    exact hle d
  · intro d hd
    rw [h2] at hd
    rw [h1]
    exact htie d hd

/-- C4 witness at the tie series `[0, 3, 0, 3]` of the specification. -/
theorem analyze_mostCommon_correct_witness :
    ∃ s, analyzeWeatherHistory ⟨some ⟨[], [0, 3, 0, 3], [], [], []⟩⟩ = some s ∧
      (∃ c ∈ [(0 : ℤ), 3, 0, 3],
          getWeatherDescription c = s.weatherPatterns.mostCommonWeather) ∧
      s.weatherPatterns.mostCommonWeatherDays =
        descCount [0, 3, 0, 3] s.weatherPatterns.mostCommonWeather ∧
      (∀ d, descCount [0, 3, 0, 3] d ≤
          s.weatherPatterns.mostCommonWeatherDays) ∧
      (∀ d, descCount [0, 3, 0, 3] d =
            s.weatherPatterns.mostCommonWeatherDays →
          firstDescIdx [0, 3, 0, 3] s.weatherPatterns.mostCommonWeather ≤
            firstDescIdx [0, 3, 0, 3] d) :=
  analyze_mostCommon_correct ⟨[], [0, 3, 0, 3], [], [], []⟩ (by decide)

/-- C10: whenever the response holds a daily series with at least one
day and the analysis returns a summary, `totalDays` is the length of the
`weather_code` array, the most-common count lies between 1 and
`totalDays`, and `mostCommonWeather` is the description of at least one
code occurring in the series. -/
theorem analyze_summary_invariants (r : HistoricalWeatherResponse)
    (daily : DailyWeather) (s : WeatherSummary)
    (hd : r.daily = some daily) (hne : daily.weather_code ≠ [])
    (hs : analyzeWeatherHistory r = some s) :
    s.weatherPatterns.totalDays = daily.weather_code.length ∧
      1 ≤ s.weatherPatterns.mostCommonWeatherDays ∧
      s.weatherPatterns.mostCommonWeatherDays ≤ s.weatherPatterns.totalDays ∧
      ∃ c ∈ daily.weather_code,
        getWeatherDescription c = s.weatherPatterns.mostCommonWeather := by
  have hr : r = { daily := some daily } := by
    cases r
    simp only [HistoricalWeatherResponse.mk.injEq]
    exact hd
  rw [hr] at hs
  obtain ⟨m, hFM, hex, hday, hone, hle, htie⟩ :=
    mostCommon_props daily.weather_code hne
  obtain ⟨s2, hs2, h1, h2, h3⟩ := analyze_fields_of_firstMax daily m hFM
  rw [hs] at hs2
  injection hs2 with hss
  subst hss
  refine ⟨h3, ?_, ?_, ?_⟩
  · rw [h2]
    exact hone
  · rw [h2, h3, hday]
    exact List.length_filter_le _ _
  · rw [h1]
    exact hex

/-- C10 witness on a one-day series (code 0, temperatures 1, no
precipitation). -/
theorem analyze_summary_invariants_witness :
    (1 : ℕ) = ([(0 : ℤ)]).length ∧ 1 ≤ (1 : ℕ) ∧ (1 : ℕ) ≤ 1 ∧
      ∃ c ∈ [(0 : ℤ)], getWeatherDescription c = "Jasno" :=
  analyze_summary_invariants
    ⟨some ⟨["2024-01-01"], [0], [.num 1], [.num 1], [.num 0]⟩⟩
    ⟨["2024-01-01"], [0], [.num 1], [.num 1], [.num 0]⟩
    { extremes := ⟨.num 1, .num 1, .num 0⟩
      averages := ⟨.num 1, .num 1, .num 0⟩
      weatherPatterns := ⟨"Jasno", 1, 1⟩ }
    rfl (by decide)
    (by
      rw [analyzeWeatherHistory_some]
      norm_num [JSNum.jsMaxList, JSNum.jsMinList, JSNum.jsSum, JSNum.jsMax,
        JSNum.jsMin, JSNum.jsAdd, JSNum.jsMul, JSNum.jsDiv, JSNum.jsRound,
        countWeatherTypes, bumpCount, firstMax]
      decide)

/-- C8 counterexample: a one-day series with maximum temperature -2.5.
The code rounds the -2.5 average to -2 (`Math.round` rounds half toward
positive infinity), while rounding half away from zero — which the claim
prescribes for negative values too — gives -3. -/
theorem analyze_round_negative_half_cex :
    (∃ s, analyzeWeatherHistory
        ⟨some ⟨["2024-01-01"], [0], [.num (-5/2)], [.num (-5/2)], [.num 0]⟩⟩ =
          some s ∧
        s.averages.avgMaxTemp = .num (-2)) ∧
      roundHalfAwayQ (-5/2) = -3 ∧ ((-2 : ℚ) ≠ ((-3 : ℤ) : ℚ)) := by
  refine ⟨⟨_, analyzeWeatherHistory_some _, ?_⟩, ?_, by norm_num⟩
  · show JSNum.jsRound (JSNum.jsDiv (JSNum.jsSum [JSNum.num (-5/2)])
        (JSNum.num (([JSNum.num (-5/2)] : List JSNum).length : ℚ))) =
      JSNum.num (-2)
    rw [JSNum.jsSum_singleton,
      show (([JSNum.num (-5/2)] : List JSNum).length : ℚ) = 1 by simp,
      JSNum.jsDiv_num _ _ one_ne_zero, JSNum.jsRound_num]
    have h2 : (-5/2 : ℚ) / 1 = (-5/2 : ℚ) := div_one _
    rw [h2]
    have h3 : roundHalfUpQ (-5/2 : ℚ) = -2 := by
      unfold roundHalfUpQ
      have h4 : (-5/2 : ℚ) + 1/2 = ((-2 : ℤ) : ℚ) := by norm_num
      rw [h4, Int.floor_intCast]
    rw [h3]
    norm_num
  · unfold roundHalfAwayQ
    rw [if_neg (by norm_num)]
    have h5 : -(-5/2 : ℚ) + 1/2 = ((3 : ℤ) : ℚ) := by norm_num
    rw [h5, Int.floor_intCast]

open JSNum in
/-- C8 amended: every rounding `analyzeWeatherHistory` performs is round
half toward positive infinity (JS `Math.round`, `⌊x + 1/2⌋`): at an
exact `.5` boundary of the relevant granularity the result is rounded
up — away from zero for positive values, toward zero for negative
values — at the integer-granularity sites (extremes and average
temperatures) and the one-decimal sites (`wettestDay`,
`totalPrecipitation`) alike. -/
theorem analyze_round_half_toward_posinf (k m : ℤ) :
    ∃ s, analyzeWeatherHistory
        ⟨some ⟨[], [0], [num ((k : ℚ) + 1/2)], [num ((k : ℚ) + 1/2)],
          [num ((m : ℚ) / 10 + 1/20)]⟩⟩ = some s ∧
      s.extremes.hottestDay = num ((k : ℚ) + 1) ∧
      s.extremes.coldestDay = num ((k : ℚ) + 1) ∧
      s.averages.avgMaxTemp = num ((k : ℚ) + 1) ∧
      s.averages.avgMinTemp = num ((k : ℚ) + 1) ∧
      s.extremes.wettestDay = num (((m : ℚ) + 1) / 10) ∧
      s.averages.totalPrecipitation = num (((m : ℚ) + 1) / 10) := by
  have hcast : ∀ j : ℤ, ((j + 1 : ℤ) : ℚ) = (j : ℚ) + 1 := by
    intro j
    push_cast
    ring
  refine ⟨_, analyzeWeatherHistory_some _, ?_, ?_, ?_, ?_, ?_, ?_⟩
  · show jsRound (jsMaxList [num ((k : ℚ) + 1/2)]) = num ((k : ℚ) + 1)
    rw [jsMaxList_singleton, jsRound_num, roundHalfUpQ_half, hcast]
  · show jsRound (jsMinList [num ((k : ℚ) + 1/2)]) = num ((k : ℚ) + 1)
    rw [jsMinList_singleton, jsRound_num, roundHalfUpQ_half, hcast]
  · show jsRound (jsDiv (jsSum [num ((k : ℚ) + 1/2)])
        (num (([num ((k : ℚ) + 1/2)] : List JSNum).length : ℚ))) =
      num ((k : ℚ) + 1)
    rw [jsSum_singleton,
      show (([num ((k : ℚ) + 1/2)] : List JSNum).length : ℚ) = 1 by simp,
      jsDiv_num _ _ one_ne_zero, div_one, jsRound_num, roundHalfUpQ_half, hcast]
  · show jsRound (jsDiv (jsSum [num ((k : ℚ) + 1/2)])
        (num (([num ((k : ℚ) + 1/2)] : List JSNum).length : ℚ))) =
      num ((k : ℚ) + 1)
    rw [jsSum_singleton,
      show (([num ((k : ℚ) + 1/2)] : List JSNum).length : ℚ) = 1 by simp,
      jsDiv_num _ _ one_ne_zero, div_one, jsRound_num, roundHalfUpQ_half, hcast]
  · show jsDiv (jsRound (jsMul (jsMaxList [num ((m : ℚ) / 10 + 1/20)])
        (num 10))) (num 10) = num (((m : ℚ) + 1) / 10)
    rw [jsMaxList_singleton, jsMul_num,
      show ((m : ℚ) / 10 + 1/20) * 10 = (m : ℚ) + 1/2 by ring,
      jsRound_num, roundHalfUpQ_half, jsDiv_num _ _ (by norm_num), hcast]
  · show jsDiv (jsRound (jsMul (jsSum [num ((m : ℚ) / 10 + 1/20)])
        (num 10))) (num 10) = num (((m : ℚ) + 1) / 10)
    rw [jsSum_singleton, jsMul_num,
      show ((m : ℚ) / 10 + 1/20) * 10 = (m : ℚ) + 1/2 by ring,
      jsRound_num, roundHalfUpQ_half, jsDiv_num _ _ (by norm_num), hcast]
